import Mathlib

/-!
Verification of the UnivNet feature extractor
(`src/transformers/models/univnet/feature_extraction_univnet.py`).

Numpy arrays are shallowly embedded as explicit shapes together with total
index functions over the real numbers: numpy's elementwise operations become
`Mat.map`, `np.matmul` becomes `Mat.matmul`, and `.T` becomes
`Mat.transpose`.  External collaborators that are not part of the source
fragment (the STFT primitive from `audio_utils`, the generic sequence
padding utility, the numpy random generator, and the superclass
serialization) are modelled from the specification and marked as such in
their doc comments; everything else is translated directly from the source.
-/

namespace UnivNet

/-- A one-dimensional real array: an explicit length together with a total
index function (entries at indices `≥ size` are irrelevant). -/
structure Arr where
  size : ℕ
  data : ℕ → ℝ

/-- A two-dimensional real array of shape `(rows, cols)`. -/
structure Mat where
  rows : ℕ
  cols : ℕ
  data : ℕ → ℕ → ℝ

/-- A two-dimensional complex array of shape `(rows, cols)`. -/
structure CMat where
  rows : ℕ
  cols : ℕ
  data : ℕ → ℕ → ℂ

/-- The all-zero empty matrix, used as a default for list indexing. -/
def Mat.zero : Mat := ⟨0, 0, fun _ _ => 0⟩

/-- The empty one-dimensional array. -/
def Arr.zero : Arr := ⟨0, fun _ => 0⟩

/-- numpy transpose `.T`. -/
def Mat.transpose (m : Mat) : Mat := ⟨m.cols, m.rows, fun i j => m.data j i⟩

/-- numpy `np.matmul` on two-dimensional arrays. -/
noncomputable def Mat.matmul (a b : Mat) : Mat :=
  ⟨a.rows, b.cols, fun i j => ∑ k ∈ Finset.range a.cols, a.data i k * b.data k j⟩

/-- An elementwise (numpy broadcast) operation on a real matrix. -/
def Mat.map (f : ℝ → ℝ) (m : Mat) : Mat := ⟨m.rows, m.cols, fun i j => f (m.data i j)⟩

/-- An elementwise complex-to-real (numpy broadcast) operation. -/
def CMat.mapR (f : ℂ → ℝ) (m : CMat) : Mat := ⟨m.rows, m.cols, fun i j => f (m.data i j)⟩

/-- A 1-D array built from a Python list of floats (`np.asarray`). -/
def Arr.ofList (l : List ℝ) : Arr := ⟨l.length, fun i => l.getD i 0⟩

/-- The instance state of a constructed `UnivNetFeatureExtractor`: every
attribute assigned in `__init__` (including `feature_size`, `sampling_rate`
and `padding_value`, which the superclass constructor stores).  The derived
attributes `num_max_samples`, `n_fft`, `n_freqs`, `window` and `mel_filters`
are fields here because they are instance attributes; `mkExtractor` below
computes them from the constructor parameters as `__init__` does. -/
structure Extractor where
  feature_size : ℕ
  sampling_rate : ℕ
  padding_value : ℝ
  do_normalize : Bool
  num_mel_bins : ℕ
  hop_length : ℕ
  win_length : ℕ
  win_function : String
  filter_length : Option ℕ
  max_length_s : ℕ
  fmin : ℝ
  fmax : ℝ
  mel_floor : ℝ
  center : Bool
  compression_factor : ℝ
  compression_clip_val : ℝ
  normalize_min : ℝ
  normalize_max : ℝ
  model_in_channels : ℕ
  pad_end_length : ℕ
  spectrogram_zero : ℝ
  num_max_samples : ℕ
  n_fft : ℕ
  n_freqs : ℕ
  window : Arr
  mel_filters : Mat

/-- Modelled from the spec: `transformers.audio_utils.optimal_fft_length`
(not under `src/`) — the smallest efficient transform size that is at least
the window length, i.e. the next power of two. -/
def optimalFftLength (winLength : ℕ) : ℕ := 2 ^ Nat.clog 2 winLength

/-- The constructor `UnivNetFeatureExtractor.__init__`.  The two opaque
collaborators `window_function` and `mel_filter_bank` (spec §6; not under
`src/`) are passed in as function parameters: `windowFn` receives the window
length and (name, periodic) is fixed by the call site, `melFn` receives
`(num_frequency_bins, num_mel_filters, min_frequency, max_frequency,
sampling_rate)` with the `"slaney"` norm and mel-scale conventions fixed. -/
noncomputable def mkExtractor (feature_size : ℕ) (sampling_rate : ℕ) (padding_value : ℝ)
    (do_normalize : Bool) (num_mel_bins hop_length win_length : ℕ)
    (win_function : String) (filter_length : Option ℕ) (max_length_s : ℕ)
    (fmin : ℝ) (fmax : Option ℝ) (mel_floor : ℝ) (center : Bool)
    (compression_factor compression_clip_val normalize_min normalize_max : ℝ)
    (model_in_channels pad_end_length : ℕ) (spectrogram_zero : ℝ)
    (windowFn : ℕ → String → Arr) (melFn : ℕ → ℕ → ℝ → ℝ → ℕ → Mat) :
    Extractor :=
  let fmaxVal := fmax.getD ((sampling_rate : ℝ) / 2)
  let n_fft := filter_length.getD (optimalFftLength win_length)
  let n_freqs := n_fft / 2 + 1
  { feature_size := feature_size
    sampling_rate := sampling_rate
    padding_value := padding_value
    do_normalize := do_normalize
    num_mel_bins := num_mel_bins
    hop_length := hop_length
    win_length := win_length
    win_function := win_function
    filter_length := filter_length
    max_length_s := max_length_s
    fmin := fmin
    fmax := fmaxVal
    mel_floor := mel_floor
    center := center
    compression_factor := compression_factor
    compression_clip_val := compression_clip_val
    normalize_min := normalize_min
    normalize_max := normalize_max
    model_in_channels := model_in_channels
    pad_end_length := pad_end_length
    spectrogram_zero := spectrogram_zero
    num_max_samples := max_length_s * sampling_rate
    n_fft := n_fft
    n_freqs := n_freqs
    window := windowFn win_length win_function
    mel_filters := melFn n_freqs num_mel_bins fmin fmaxVal sampling_rate }

/-- `dynamic_range_compression`:
`np.log(np.clip(waveform, a_min=compression_clip_val, a_max=None) *
compression_factor)`, pointwise (`np.clip` with only a lower bound is
`max`). -/
noncomputable def dynamicRangeCompression (e : Extractor) (x : ℝ) : ℝ :=
  Real.log (max x e.compression_clip_val * e.compression_factor)

/-- `dynamic_range_decompression`:
`np.exp(waveform) / compression_factor`, pointwise. -/
noncomputable def dynamicRangeDecompression (e : Extractor) (x : ℝ) : ℝ :=
  Real.exp x / e.compression_factor

/-- `normalize`: `2 * ((spectrogram - normalize_min) / (normalize_max -
normalize_min)) - 1`, pointwise. -/
noncomputable def normalize (e : Extractor) (x : ℝ) : ℝ :=
  2 * ((x - e.normalize_min) / (e.normalize_max - e.normalize_min)) - 1

/-- `denormalize`: `normalize_min + (normalize_max - normalize_min) *
((spectrogram + 1) / 2)`, pointwise. -/
noncomputable def denormalize (e : Extractor) (x : ℝ) : ℝ :=
  e.normalize_min + (e.normalize_max - e.normalize_min) * ((x + 1) / 2)

/-- A default-configured extractor (the literal defaults of `__init__`,
with `filter_length = 1024` so `n_fft = 1024` and `n_freqs = 513`); the
opaque window and filter-bank collaborators are instantiated with
constant-zero arrays, which no claim's statement depends on. -/
noncomputable def eDefault : Extractor :=
  mkExtractor 1 24000 0 false 100 256 1024 "hann_window" (some 1024) 10
    0 none (1e-9) false 1 (1e-5) (-11.512925148010254) (2.3143386840820312)
    64 10 (-11.5129)
    (fun n _ => ⟨n, fun _ => 0⟩) (fun nf nm _ _ _ => ⟨nf, nm, fun _ _ => 0⟩)

/-- The custom symmetric padding of `mel_spectrogram`:
`np.pad(waveform, (p, p), mode="reflect")` with
`p = int((n_fft - hop_length) / 2)`.  This models numpy's reflect mode in
the single-reflection regime `p < size` (the regime of the pipeline, whose
pad amount is far below the waveform length): the left pad at position `i`
is `waveform[p - i]` and the right pad at offset `j` is
`waveform[size - 2 - j]`. -/
def reflectPad (p : ℕ) (w : Arr) : Arr :=
  ⟨w.size + 2 * p, fun i =>
    if i < p then w.data (p - i)
    else if i < p + w.size then w.data (i - p)
    else w.data (w.size - 2 - (i - p - w.size))⟩

/-- Modelled from the spec: the raw frame count of the STFT collaborator
`transformers.audio_utils.spectrogram` (not under `src/`), applied to the
waveform it analyzes (after any centering padding): the number of full
frames that fit when frame `t` starts at sample `t * hop_length`, i.e.
`(len - frame_length) / hop + 1`, and `0` when the waveform is shorter
than one frame. -/
def numSTFTFrames (len frameLength hopLength : ℕ) : ℕ :=
  if len < frameLength then 0 else (len - frameLength) / hopLength + 1

/-- Modelled from the spec: bin `k` of the discrete Fourier transform of
one zero-padded windowed frame (the FFT primitive underlying the STFT
collaborator). -/
noncomputable def dftBin (buf : ℕ → ℝ) (fftLength k : ℕ) : ℂ :=
  ∑ n ∈ Finset.range fftLength,
    (buf n : ℂ) * Complex.exp (-(2 * Real.pi * Complex.I * k * n) / fftLength)

/-- Modelled from the spec: the STFT collaborator
`transformers.audio_utils.spectrogram` (not under `src/`), called with
`power=None` and no mel filters, as `mel_spectrogram` does: when the
centering flag is set the waveform is first reflect-padded by
`frame_length / 2` on each side (per the source docstring, "pad the
waveform so that frame `t` is centered around time `t * hop_length`";
otherwise frame `t` starts at time `t * hop_length`); then the one-sided
complex spectrogram is returned frequency-major with shape
`(fft_length / 2 + 1, num_frames)`, each frame multiplied elementwise by
the analysis window. -/
noncomputable def audioSpectrogram (window : Arr) (frameLength hopLength fftLength : ℕ)
    (center : Bool) (w : Arr) : CMat :=
  let w := if center then reflectPad (frameLength / 2) w else w
  ⟨fftLength / 2 + 1, numSTFTFrames w.size frameLength hopLength,
    fun k t =>
      dftBin
        (fun n => if n < frameLength then w.data (t * hopLength + n) * window.data n else 0)
        fftLength k⟩

/-- `UnivNetFeatureExtractor.mel_spectrogram`, translated statement by
statement from the source: reflect-pad, complex STFT, amplitude
`sqrt(real^2 + imag^2 + mel_floor)`, mel projection
`np.matmul(mel_filters.T, amplitude)`, dynamic-range compression, and a
final transpose so that frames come first. -/
noncomputable def melSpectrogram (e : Extractor) (waveform : Arr) : Mat :=
  let padded := reflectPad ((e.n_fft - e.hop_length) / 2) waveform
  let complex_spectrogram :=
    audioSpectrogram e.window e.n_fft e.hop_length e.n_fft e.center padded
  let amplitude_spectrogram :=
    CMat.mapR (fun c => Real.sqrt (c.re ^ 2 + c.im ^ 2 + e.mel_floor)) complex_spectrogram
  let mel := Mat.matmul e.mel_filters.transpose amplitude_spectrogram
  let log_mel_spectrogram := Mat.map (dynamicRangeCompression e) mel
  log_mel_spectrogram.transpose

/-- The log-mel pipeline as the specification words it, for comparison with
the source translation `melSpectrogram`: "reflect-pad the waveform, take
the one-sided complex STFT with the precomputed window, FFT length and hop
length, form the magnitude as sqrt(real^2 + imag^2 + mel_floor) with the
mel-floor epsilon added inside the square root before mel projection,
multiply the transposed mel filter bank by that magnitude spectrogram,
apply dynamic-range compression defined as the natural log of
(clip(x, compression_clip_val, unbounded) * compression_factor), and
transpose so that frames are the leading axis".  The collaborator receives
the configured centering flag on both sides, as its interface (spec §6)
prescribes. -/
noncomputable def melSpectrogramSpec (e : Extractor) (waveform : Arr) : Mat :=
  Mat.transpose
    (Mat.map (fun x => Real.log (max x e.compression_clip_val * e.compression_factor))
      (Mat.matmul (Mat.transpose e.mel_filters)
        (CMat.mapR (fun c => Real.sqrt (c.re ^ 2 + c.im ^ 2 + e.mel_floor))
          (audioSpectrogram e.window e.n_fft e.hop_length e.n_fft e.center
            (reflectPad ((e.n_fft - e.hop_length) / 2) waveform)))))

/-- `pad_spectrogram_end`: appends `pad_length` frames (default
`pad_end_length`) filled with the spectrogram "zero" (default
`spectrogram_zero`) to the frame axis, via `np.full` and
`np.concatenate(..., axis=-2)`. -/
def padSpectrogramEnd (e : Extractor) (spec : Mat) (pad_length : Option ℕ)
    (spectrogram_zero : Option ℝ) : Mat :=
  let pl := pad_length.getD e.pad_end_length
  let z := spectrogram_zero.getD e.spectrogram_zero
  ⟨spec.rows + pl, spec.cols, fun i j => if i < spec.rows then spec.data i j else z⟩

/-- Modelled from the spec: a numpy random generator
(`np.random.Generator`), embedded as a deterministic stream of draws
together with a position — its seed fixes the stream, and each draw
advances the position, which is the generator's only mutable state. -/
structure Gen where
  stream : ℕ → ℝ
  pos : ℕ

/-- Modelled from the spec: `Generator.standard_normal(shape)` — reads
`n * c` consecutive draws from the generator's stream into an `(n, c)`
array and returns the advanced generator (numpy mutates it in place). -/
def standardNormal (g : Gen) (n c : ℕ) : Mat × Gen :=
  (⟨n, c, fun i j => g.stream (g.pos + (i * c + j))⟩, ⟨g.stream, g.pos + n * c⟩)

/-- `generate_noise`: resolves `model_in_channels` against the
configuration, uses the supplied generator or a fresh one
(`np.random.default_rng()`, modelled by the `fresh` argument), and draws a
`(noise_length, model_in_channels)` standard-normal array. -/
def generateNoise (e : Extractor) (noise_length : ℕ) (model_in_channels : Option ℕ)
    (generator : Option Gen) (fresh : Gen) : Mat × Gen :=
  let c := model_in_channels.getD e.model_in_channels
  standardNormal (generator.getD fresh) noise_length c

/-- The noise list comprehension of `__call__`: one `generate_noise` call
per spectrogram, with the length of each noise tensor taken from that
spectrogram's frame count.  A supplied generator is a single mutable
object, so its advanced state threads through the successive calls; with no
generator, each call creates a fresh one, modelled by drawing the `i`-th
generator from the entropy oracle `ent`. -/
def noiseSeqAux (e : Extractor) (mic : Option ℕ) :
    Option Gen → (ℕ → Gen) → ℕ → List Mat → List Mat
  | _, _, _, [] => []
  | some g, ent, i, s :: rest =>
    let r := generateNoise e s.rows mic (some g) (ent i)
    r.1 :: noiseSeqAux e mic (some r.2) ent (i + 1) rest
  | none, ent, i, s :: rest =>
    let r := generateNoise e s.rows mic none (ent i)
    r.1 :: noiseSeqAux e mic none ent (i + 1) rest

/-- The full noise list for a batch of spectrograms. -/
def noiseSequence (e : Extractor) (mic : Option ℕ) (generator : Option Gen)
    (ent : ℕ → Gen) (specs : List Mat) : List Mat :=
  noiseSeqAux e mic generator ent 0 specs

/-- The `raw_speech` argument of `__call__`: a numpy array of any shape
(row-major data), a plain list of floats, a list of numpy arrays, or a list
of lists of floats. -/
inductive RawSpeech where
  | ndarray (shape : List ℕ) (data : ℕ → ℝ)
  | floats (w : List ℝ)
  | arrays (ws : List Arr)
  | nested (ws : List (List ℝ))

/-- The number of dimensions (`len(raw_speech.shape)`) of a numpy input;
non-array inputs report `1` (they never reach the dimension test). -/
def RawSpeech.ndim : RawSpeech → ℕ
  | .ndarray shape _ => shape.length
  | _ => 1

/-- `is_batched_numpy = isinstance(raw_speech, np.ndarray) and
len(raw_speech.shape) > 1`. -/
def isBatchedNumpy : RawSpeech → Bool
  | .ndarray shape _ => decide (1 < shape.length)
  | _ => false

/-- The conversion of `raw_speech` into the list of mono waveforms that
`__call__` maps `mel_spectrogram` over: a batched numpy array is split into
its rows, lists of arrays or of float lists become one waveform per
element, and an unbatched input is wrapped into a singleton batch. -/
def toWaveforms : RawSpeech → List Arr
  | .ndarray [] d => [⟨0, d⟩]
  | .ndarray [n] d => [⟨n, d⟩]
  | .ndarray (b :: t :: _) d => (List.range b).map (fun i => ⟨t, fun j => d (i * t + j)⟩)
  | .floats w => [Arr.ofList w]
  | .arrays ws => ws
  | .nested ws => ws.map Arr.ofList

/-- The two validation failures `__call__` can raise: the sampling-rate
mismatch `ValueError` (whose message names the expected, configured rate
and the received rate, carried here as data) and the mono-only shape
`ValueError`. -/
inductive CallError where
  | samplingRateMismatch (expected received : ℕ)
  | multiChannel
deriving DecidableEq

/-- The warnings `__call__` can log: the recommendation to pass
`sampling_rate` explicitly. -/
inductive Warning where
  | recommendSamplingRate
deriving DecidableEq

/-- A successful `__call__` result (`BatchFeature`): the spectrogram list
and, when requested, the noise list (the waveform input itself is deleted
from the result). -/
structure CallOutput where
  spectrogram : List Mat
  noise_sequence : Option (List Mat)

/-- The padding strategies of the `padding` argument (`True`/`"longest"`,
`"max_length"`, `False`/`"do_not_pad"`). -/
inductive PaddingStrategy where
  | longest
  | maxLength
  | doNotPad

/-- Rounding a target length up to a multiple of `pad_to_multiple_of`. -/
def roundUpToMultiple (mult : Option ℕ) (n : ℕ) : ℕ :=
  match mult with
  | none => n
  | some k => if k = 0 then n else (n + k - 1) / k * k

/-- Truncating one waveform to at most `maxLen` samples. -/
def truncateTo (maxLen : ℕ) (w : Arr) : Arr :=
  if maxLen < w.size then ⟨maxLen, w.data⟩ else w

/-- Padding one waveform up to `target` samples with the padding value. -/
def padTo (target : ℕ) (pv : ℝ) (w : Arr) : Arr :=
  if w.size < target then ⟨target, fun i => if i < w.size then w.data i else pv⟩ else w

/-- Modelled from the spec: the generic sequence padding/truncation
collaborator (`SequenceFeatureExtractor.pad`, not under `src/`), which
batches variable-length sequences per the padding strategy — pad to the
longest sequence in the batch, pad to the explicit maximum length, or leave
lengths alone — with optional rounding of the target to a multiple and
truncation of sequences longer than the maximum length; attention-mask
generation is disabled for this pipeline. -/
def padBatch (strategy : PaddingStrategy) (maxLen : ℕ) (truncation : Bool)
    (mult : Option ℕ) (pv : ℝ) (ws : List Arr) : List Arr :=
  let ws := if truncation then ws.map (truncateTo maxLen) else ws
  match strategy with
  | .doNotPad => ws
  | .longest =>
    let target := roundUpToMultiple mult ((ws.map Arr.size).foldr max 0)
    ws.map (padTo target pv)
  | .maxLength =>
    let target := roundUpToMultiple mult maxLen
    ws.map (padTo target pv)

/-- The validation prefix of `__call__`, in source order: first the
sampling-rate check (an explicit rate different from the configured one
raises the mismatch error naming both rates), then the batched-numpy shape
check (`is_batched_numpy and len(raw_speech.shape) > 2` raises the
mono-only error). -/
def validate (e : Extractor) (raw_speech : RawSpeech) (sampling_rate : Option ℕ) :
    Except CallError Unit :=
  match sampling_rate with
  | some sr =>
    if sr = e.sampling_rate then
      if isBatchedNumpy raw_speech = true ∧ 2 < raw_speech.ndim then
        Except.error CallError.multiChannel
      else Except.ok ()
    else Except.error (CallError.samplingRateMismatch e.sampling_rate sr)
  | none =>
    if isBatchedNumpy raw_speech = true ∧ 2 < raw_speech.ndim then
      Except.error CallError.multiChannel
    else Except.ok ()

/-- The per-item spectrograms computed by `__call__` before any end
padding: the input waveforms are batch-padded (with `max_length` defaulting
to `num_max_samples` and no attention mask) and `mel_spectrogram` is mapped
over the result. -/
noncomputable def callMelSpectrograms (e : Extractor) (raw_speech : RawSpeech)
    (padding : PaddingStrategy) (max_length : Option ℕ) (truncation : Bool)
    (pad_to_multiple_of : Option ℕ) : List Mat :=
  (padBatch padding (max_length.getD e.num_max_samples) truncation pad_to_multiple_of
      e.padding_value (toWaveforms raw_speech)).map (melSpectrogram e)

/-- The post-validation body of `__call__`, in source order: compute the
per-item spectrograms, optionally append end padding to each, optionally
generate one frame-count-matched noise tensor per (already end-padded)
spectrogram, and optionally normalize each spectrogram. -/
noncomputable def pipelineOutput (e : Extractor) (raw_speech : RawSpeech)
    (padding : PaddingStrategy) (max_length : Option ℕ) (truncation : Bool)
    (pad_to_multiple_of : Option ℕ) (return_noise : Bool) (generator : Option Gen)
    (ent : ℕ → Gen) (model_in_channels : Option ℕ) (pad_end : Bool)
    (pad_length : Option ℕ) (spectrogram_zero : Option ℝ) (do_norm : Bool) :
    CallOutput :=
  let mel_spectrograms :=
    callMelSpectrograms e raw_speech padding max_length truncation pad_to_multiple_of
  let specs :=
    if pad_end then
      mel_spectrograms.map (fun s => padSpectrogramEnd e s pad_length spectrogram_zero)
    else mel_spectrograms
  let noise :=
    if return_noise then
      some (noiseSequence e model_in_channels generator ent specs)
    else none
  let specs := if do_norm then specs.map (Mat.map (normalize e)) else specs
  { spectrogram := specs, noise_sequence := noise }

/-- `UnivNetFeatureExtractor.__call__` (tensor conversion via
`return_tensors`, a pure representation change, is out of scope): resolve
`do_normalize`, log the sampling-rate recommendation warning when the rate
is omitted, run the validation checks, and on success run the pipeline.
`ent` is the entropy oracle supplying the fresh generators that
`np.random.default_rng()` would create when `generator` is `None`. -/
noncomputable def callUnivNet (e : Extractor) (raw_speech : RawSpeech)
    (sampling_rate : Option ℕ) (padding : PaddingStrategy) (max_length : Option ℕ)
    (truncation : Bool) (pad_to_multiple_of : Option ℕ) (return_noise : Bool)
    (generator : Option Gen) (ent : ℕ → Gen) (model_in_channels : Option ℕ)
    (pad_end : Bool) (pad_length : Option ℕ) (spectrogram_zero : Option ℝ)
    (do_normalize : Option Bool) : List Warning × Except CallError CallOutput :=
  let do_norm := do_normalize.getD e.do_normalize
  let warnings : List Warning :=
    match sampling_rate with
    | some _ => []
    | none => [Warning.recommendSamplingRate]
  (warnings,
    (validate e raw_speech sampling_rate).map (fun _ =>
      pipelineOutput e raw_speech padding max_length truncation pad_to_multiple_of
        return_noise generator ent model_in_channels pad_end pad_length
        spectrogram_zero do_norm))

/-- A generator whose stream is constantly zero, for concrete instances. -/
def genZero : Gen := ⟨fun _ => 0, 0⟩

/-- An entropy oracle handing out `genZero` for every fresh-generator
request, for concrete instances. -/
def entZero : ℕ → Gen := fun _ => genZero

/-- A small concrete extractor configuration (trivial window and filter
bank; `n_fft = hop_length = 2`, so the reflect pad is `0`), used to
exercise the call pipeline on explicit inputs. -/
def eSmall : Extractor :=
  { feature_size := 1, sampling_rate := 24000, padding_value := 0,
    do_normalize := false, num_mel_bins := 1, hop_length := 2, win_length := 2,
    win_function := "hann_window", filter_length := some 2, max_length_s := 10,
    fmin := 0, fmax := 12000, mel_floor := 0, center := false,
    compression_factor := 1, compression_clip_val := 1,
    normalize_min := 0, normalize_max := 2, model_in_channels := 2,
    pad_end_length := 1, spectrogram_zero := 0, num_max_samples := 240000,
    n_fft := 2, n_freqs := 2, window := ⟨2, fun _ => 1⟩,
    mel_filters := ⟨2, 1, fun _ _ => 0⟩ }

/-- `eSmall` with normalization enabled by default. -/
def eSmallNorm : Extractor := { eSmall with do_normalize := true }

/-- A concrete extractor with `n_fft = 4`, `hop_length = 2` and centering
disabled, used to check the frame-count formula. -/
def eFrames : Extractor :=
  { feature_size := 1, sampling_rate := 24000, padding_value := 0,
    do_normalize := false, num_mel_bins := 3, hop_length := 2, win_length := 4,
    win_function := "hann_window", filter_length := some 4, max_length_s := 10,
    fmin := 0, fmax := 12000, mel_floor := 0, center := false,
    compression_factor := 1, compression_clip_val := 1,
    normalize_min := 0, normalize_max := 2, model_in_channels := 64,
    pad_end_length := 10, spectrogram_zero := 0, num_max_samples := 240000,
    n_fft := 4, n_freqs := 3, window := ⟨4, fun _ => 1⟩,
    mel_filters := ⟨3, 3, fun _ _ => 0⟩ }

/-- `eFrames` with centering enabled. -/
def eFramesCentered : Extractor := { eFrames with center := true }

/-- A one-item batch holding a single empty waveform. -/
def rawEmptyBatch : RawSpeech := RawSpeech.arrays [⟨0, fun _ => 0⟩]

/-- The successful output of calling `eSmall` on `rawEmptyBatch` with
`pad_end = True` and `return_noise = False` (and no other options). -/
noncomputable def padEndCallOutput : CallOutput :=
  match (callUnivNet eSmall rawEmptyBatch none PaddingStrategy.doNotPad none false
      none false none entZero none true none none none).2 with
  | Except.ok o => o
  | Except.error _ => ⟨[], none⟩

/-- The successful output of calling `eSmallNorm` (normalization on) on
`rawEmptyBatch` with `pad_end = True` and `return_noise = False`. -/
noncomputable def padEndNormCallOutput : CallOutput :=
  match (callUnivNet eSmallNorm rawEmptyBatch none PaddingStrategy.doNotPad none false
      none false none entZero none true none none none).2 with
  | Except.ok o => o
  | Except.error _ => ⟨[], none⟩

/-- The successful output of calling `eSmall` on `rawEmptyBatch` with
`return_noise = True`, `pad_end = True` and a supplied generator. -/
noncomputable def noiseCallOutput : CallOutput :=
  match (callUnivNet eSmall rawEmptyBatch none PaddingStrategy.doNotPad none false
      none true (some genZero) entZero none true none none none).2 with
  | Except.ok o => o
  | Except.error _ => ⟨[], none⟩

/-- The instance attributes a constructed extractor carries (everything
assigned in `__init__`, including the superclass fields), in assignment
order. -/
def instanceAttributeKeys : List String :=
  ["feature_size", "sampling_rate", "padding_value", "do_normalize",
   "num_mel_bins", "hop_length", "win_length", "win_function", "filter_length",
   "fmin", "fmax", "mel_floor", "max_length_s", "num_max_samples", "n_fft",
   "n_freqs", "window", "mel_filters", "center", "compression_factor",
   "compression_clip_val", "normalize_min", "normalize_max",
   "model_in_channels", "pad_end_length", "spectrogram_zero"]

/-- Modelled from the spec: the superclass serialization (`super().to_dict()`,
not under `src/`) produces the key-value mapping of the instance's
attributes. -/
def superToDictKeys : List String := instanceAttributeKeys

/-- The names `UnivNetFeatureExtractor.to_dict` deletes from the
superclass serialization because they are derived from other properties. -/
def toDictDeletedNames : List String :=
  ["window", "mel_filters", "n_fft", "n_freqs", "num_max_samples"]

/-- The key set of `UnivNetFeatureExtractor.to_dict`: the superclass
serialization with each of the derived names removed when present. -/
def toDictKeys : List String :=
  superToDictKeys.filter (fun n => !(toDictDeletedNames.contains n))

/-- Indexing through `List.map` with a default, at an in-range index. -/
theorem getD_map_mat (f : Mat → Mat) :
    ∀ (l : List Mat) (i : ℕ), i < l.length → ∀ d : Mat,
      (l.map f).getD i d = f (l.getD i d) := by
  intro l
  induction l with
  | nil => intro i hi; exact absurd hi (by simp)
  | cons a l ih =>
    intro i hi d
    cases i with
    | zero => rfl
    | succ n => simpa using ih n (by simpa using hi) d

/-- The noise comprehension produces one tensor per spectrogram, with each
tensor's row count taken from its spectrogram and its column count being
the resolved channel count, whatever the generator state. -/
theorem noiseSeqAux_dims (e : Extractor) (mic : Option ℕ) :
    ∀ (specs : List Mat) (g : Option Gen) (ent : ℕ → Gen) (i0 : ℕ),
      (noiseSeqAux e mic g ent i0 specs).length = specs.length ∧
      ∀ j, j < specs.length → ∀ d : Mat,
        ((noiseSeqAux e mic g ent i0 specs).getD j d).rows = (specs.getD j d).rows ∧
        ((noiseSeqAux e mic g ent i0 specs).getD j d).cols
          = mic.getD e.model_in_channels := by
  intro specs
  induction specs with
  | nil =>
    intro g ent i0
    refine ⟨by cases g <;> rfl, fun j hj => absurd hj (by simp)⟩
  | cons s rest ih =>
    intro g ent i0
    cases g with
    | some g0 =>
      obtain ⟨hl, hd⟩ :=
        ih (some (generateNoise e s.rows mic (some g0) (ent i0)).2) ent (i0 + 1)
      refine ⟨by simpa [noiseSeqAux] using hl, ?_⟩
      intro j hj d
      cases j with
      | zero => exact ⟨rfl, rfl⟩
      | succ n =>
        have := hd n (by simpa using hj) d
        simpa [noiseSeqAux] using this
    | none =>
      obtain ⟨hl, hd⟩ := ih none ent (i0 + 1)
      refine ⟨by simpa [noiseSeqAux] using hl, ?_⟩
      intro j hj d
      cases j with
      | zero => exact ⟨rfl, rfl⟩
      | succ n =>
        have := hd n (by simpa using hj) d
        simpa [noiseSeqAux] using this

/-- With a supplied generator, the noise comprehension never consults the
fresh-generator entropy oracle. -/
theorem noiseSeqAux_some_gen (e : Extractor) (mic : Option ℕ) :
    ∀ (specs : List Mat) (g : Gen) (ent ent' : ℕ → Gen) (i i' : ℕ),
      noiseSeqAux e mic (some g) ent i specs
        = noiseSeqAux e mic (some g) ent' i' specs := by
  intro specs
  induction specs with
  | nil => intro g ent ent' i i'; rfl
  | cons s rest ih =>
    intro g ent ent' i i'
    simp only [noiseSeqAux, generateNoise, Option.getD]
    exact congrArg _ (ih _ ent ent' (i + 1) (i' + 1))

/-- A successful `__call__` result is exactly the pipeline output. -/
theorem callUnivNet_ok (e : Extractor) (raw : RawSpeech) (sr : Option ℕ)
    (padding : PaddingStrategy) (ml : Option ℕ) (tr : Bool) (mult : Option ℕ)
    (rn : Bool) (g : Option Gen) (ent : ℕ → Gen) (mic : Option ℕ) (pe : Bool)
    (pl : Option ℕ) (z : Option ℝ) (dn : Option Bool) (out : CallOutput)
    (h : (callUnivNet e raw sr padding ml tr mult rn g ent mic pe pl z dn).2
        = Except.ok out) :
    out = pipelineOutput e raw padding ml tr mult rn g ent mic pe pl z
        (dn.getD e.do_normalize) := by
  simp only [callUnivNet] at h
  cases hv : validate e raw sr with
  | error c => rw [hv] at h; exact absurd h (by simp [Except.map])
  | ok u => rw [hv] at h; simpa [Except.map] using h.symm

/-- C1: for every extractor configuration and every mono waveform, the
source `mel_spectrogram` computes exactly the sequence the specification
describes — reflect-padding, one-sided complex STFT with the precomputed
window, FFT length and hop length, magnitude with the mel-floor added
inside the square root before mel projection, multiplication by the
transposed mel filter bank, natural-log dynamic-range compression of the
clipped values scaled by the compression factor, and a final transpose
putting frames first. -/
theorem mel_spectrogram_matches_spec :
    ∀ (e : Extractor) (waveform : Arr),
      melSpectrogramSpec e waveform = melSpectrogram e waveform :=
  fun _ _ => rfl

/-- C2: for every spectrogram value `x`, `denormalize (normalize x) = x`
(exactly, in real arithmetic), and `normalize` maps the configured
`normalize_min` to exactly `-1` and `normalize_max` to exactly `1`, provided
the two bounds are distinct. -/
theorem normalize_denormalize_roundtrip (e : Extractor)
    (h : e.normalize_max ≠ e.normalize_min) :
    (∀ x : ℝ, denormalize e (normalize e x) = x) ∧
      normalize e e.normalize_min = -1 ∧ normalize e e.normalize_max = 1 := by
  have hne : e.normalize_max - e.normalize_min ≠ 0 := sub_ne_zero.mpr h
  refine ⟨fun x => ?_, ?_, ?_⟩
  · unfold denormalize normalize
    field_simp
    ring
  · unfold normalize
    simp
  · unfold normalize
    field_simp
    norm_num

/-- The round trip and the boundary values of `normalize` at the default
configuration. -/
theorem normalize_denormalize_roundtrip_check :
    denormalize eDefault (normalize eDefault 3) = 3 ∧
      normalize eDefault eDefault.normalize_min = -1 ∧
      normalize eDefault eDefault.normalize_max = 1 := by
  have h : eDefault.normalize_max ≠ eDefault.normalize_min := by
    show (2.3143386840820312 : ℝ) ≠ -11.512925148010254
    norm_num
  exact ⟨(normalize_denormalize_roundtrip eDefault h).1 3,
    (normalize_denormalize_roundtrip eDefault h).2.1,
    (normalize_denormalize_roundtrip eDefault h).2.2⟩

/-- C3: for a waveform of length `L`, the frame count (leading dimension)
of `mel_spectrogram`'s output is the deterministic function of `L`, the
FFT length, the hop length, the reflect-padding amount
`p = (n_fft - hop_length) / 2` and the configured centering flag:
`(L + 2 * p - n_fft) / hop_length + 1` with centering disabled (the
default), and, with centering enabled, the same count on the waveform
further reflect-padded by `n_fft / 2` per side inside the STFT
collaborator — whenever the reflect-padded waveform holds at least one
frame (and the pad amount is the nonnegative one the source computes,
`hop_length ≤ n_fft`). -/
theorem mel_spectrogram_num_frames (e : Extractor) (w : Arr)
    (hhop : e.hop_length ≤ e.n_fft)
    (hlen : e.n_fft ≤ w.size + 2 * ((e.n_fft - e.hop_length) / 2)) :
    (melSpectrogram e w).rows
      = (w.size + 2 * ((e.n_fft - e.hop_length) / 2)
          + (if e.center then 2 * (e.n_fft / 2) else 0) - e.n_fft) / e.hop_length
        + 1 := by
  have hrows : (melSpectrogram e w).rows
      = numSTFTFrames
          (if e.center then
              reflectPad (e.n_fft / 2) (reflectPad ((e.n_fft - e.hop_length) / 2) w)
            else reflectPad ((e.n_fft - e.hop_length) / 2) w).size
          e.n_fft e.hop_length := rfl
  rw [hrows]
  cases hc : e.center with
  | false =>
    show numSTFTFrames (w.size + 2 * ((e.n_fft - e.hop_length) / 2))
        e.n_fft e.hop_length
      = (w.size + 2 * ((e.n_fft - e.hop_length) / 2) - e.n_fft) / e.hop_length + 1
    unfold numSTFTFrames
    rw [if_neg (Nat.not_lt.mpr hlen)]
  | true =>
    show numSTFTFrames
        (w.size + 2 * ((e.n_fft - e.hop_length) / 2) + 2 * (e.n_fft / 2))
        e.n_fft e.hop_length
      = (w.size + 2 * ((e.n_fft - e.hop_length) / 2) + 2 * (e.n_fft / 2) - e.n_fft)
          / e.hop_length + 1
    unfold numSTFTFrames
    rw [if_neg (Nat.not_lt.mpr (le_trans hlen (Nat.le_add_right _ _)))]

/-- Concrete frame counts in both centering modes: with `n_fft = 4`,
`hop_length = 2` (reflect pad `1` per side) and `4` samples, the
spectrogram has `(4 + 2 - 4) / 2 + 1 = 2` frames with centering disabled
and, with centering enabled (an extra reflect pad of `4 / 2` per side
inside the STFT), `(4 + 2 + 4 - 4) / 2 + 1 = 4` frames. -/
theorem mel_spectrogram_num_frames_check :
    (melSpectrogram eFrames ⟨4, fun _ => 0⟩).rows = 2
      ∧ (melSpectrogram eFramesCentered ⟨4, fun _ => 0⟩).rows = 4 := by
  constructor
  · rw [mel_spectrogram_num_frames eFrames ⟨4, fun _ => 0⟩ (by decide) (by decide)]
    decide
  · rw [mel_spectrogram_num_frames eFramesCentered ⟨4, fun _ => 0⟩ (by decide)
      (by decide)]
    decide

/-- C10: `dynamic_range_decompression` inverts `dynamic_range_compression`
on the clipped domain: for `compression_clip_val ≤ x` the round trip
returns `x`, and for `x < compression_clip_val` it returns
`compression_clip_val`, given a positive clip value and a positive
compression factor. -/
theorem dynamic_range_compression_roundtrip (e : Extractor)
    (hc : 0 < e.compression_clip_val) (hf : 0 < e.compression_factor) :
    (∀ x : ℝ, e.compression_clip_val ≤ x →
        dynamicRangeDecompression e (dynamicRangeCompression e x) = x) ∧
      (∀ x : ℝ, x < e.compression_clip_val →
        dynamicRangeDecompression e (dynamicRangeCompression e x)
          = e.compression_clip_val) := by
  constructor
  · intro x hx
    unfold dynamicRangeDecompression dynamicRangeCompression
    rw [max_eq_left hx, Real.exp_log (mul_pos (lt_of_lt_of_le hc hx) hf)]
    field_simp
  · intro x hx
    unfold dynamicRangeDecompression dynamicRangeCompression
    rw [max_eq_right hx.le, Real.exp_log (mul_pos hc hf)]
    field_simp

/-- The compression round trip at the default configuration: a value above
the clip floor comes back unchanged, a value below it comes back as the
clip floor. -/
theorem dynamic_range_compression_roundtrip_check :
    dynamicRangeDecompression eDefault (dynamicRangeCompression eDefault 3) = 3 ∧
      dynamicRangeDecompression eDefault (dynamicRangeCompression eDefault 0)
        = eDefault.compression_clip_val := by
  have hc : (0 : ℝ) < eDefault.compression_clip_val := by
    show (0 : ℝ) < 1e-5
    norm_num
  have hf : (0 : ℝ) < eDefault.compression_factor := by
    show (0 : ℝ) < 1
    norm_num
  exact ⟨(dynamic_range_compression_roundtrip eDefault hc hf).1 3
      (by show (1e-5 : ℝ) ≤ 3; norm_num),
    (dynamic_range_compression_roundtrip eDefault hc hf).2 0
      (by show (0 : ℝ) < 1e-5; norm_num)⟩

/-- C4: whatever the other arguments, a call with an explicit sampling rate
different from the configured one fails with the mismatch error naming the
expected (configured) and received rates; a call with the sampling rate
omitted never fails with that error and logs the recommendation warning. -/
theorem call_sampling_rate_validation (e : Extractor) (raw : RawSpeech)
    (padding : PaddingStrategy) (ml : Option ℕ) (tr : Bool) (mult : Option ℕ)
    (rn : Bool) (g : Option Gen) (ent : ℕ → Gen) (mic : Option ℕ) (pe : Bool)
    (pl : Option ℕ) (z : Option ℝ) (dn : Option Bool) (sr : ℕ)
    (h : sr ≠ e.sampling_rate) :
    (callUnivNet e raw (some sr) padding ml tr mult rn g ent mic pe pl z dn).2
        = Except.error (CallError.samplingRateMismatch e.sampling_rate sr)
      ∧ (∀ a b, (callUnivNet e raw none padding ml tr mult rn g ent mic pe pl z dn).2
          ≠ Except.error (CallError.samplingRateMismatch a b))
      ∧ (callUnivNet e raw none padding ml tr mult rn g ent mic pe pl z dn).1
          = [Warning.recommendSamplingRate] := by
  refine ⟨?_, ?_, rfl⟩
  · simp [callUnivNet, validate, h, Except.map]
  · intro a b
    simp only [callUnivNet, validate]
    by_cases hb : isBatchedNumpy raw = true ∧ 2 < raw.ndim
    · rw [if_pos hb]
      simp [Except.map]
    · rw [if_neg hb]
      simp [Except.map]

/-- A mismatched explicit rate of 8000 against the configured 24000 fails
with the error naming both, and an omitted rate yields the warning and (for
this input) never that error. -/
theorem call_sampling_rate_validation_check :
    (callUnivNet eDefault (RawSpeech.floats []) (some 8000) PaddingStrategy.doNotPad
        none false none false none entZero none false none none none).2
        = Except.error (CallError.samplingRateMismatch 24000 8000)
      ∧ (callUnivNet eDefault (RawSpeech.floats []) none PaddingStrategy.doNotPad
          none false none false none entZero none false none none none).2
          ≠ Except.error (CallError.samplingRateMismatch 24000 8000)
      ∧ (callUnivNet eDefault (RawSpeech.floats []) none PaddingStrategy.doNotPad
          none false none false none entZero none false none none none).1
          = [Warning.recommendSamplingRate] := by
  have h : (8000 : ℕ) ≠ eDefault.sampling_rate := by decide
  have key := call_sampling_rate_validation eDefault (RawSpeech.floats [])
    PaddingStrategy.doNotPad none false none false none entZero none false
    none none none 8000 h
  exact ⟨key.1, key.2.1 24000 8000, key.2.2⟩

/-- C5 (amended): a 3-D batched numpy input of shape `(batch, channel,
time)` with more than one channel always makes the call fail, and it fails
with the mono-only shape error whenever the sampling-rate check passes
(i.e. the rate is omitted or equals the configured one); an explicit
mismatched rate takes precedence and produces the rate-mismatch error
instead. -/
theorem call_multichannel_validation (e : Extractor) (b c t : ℕ) (d : ℕ → ℝ)
    (sr : Option ℕ) (hsr : sr = none ∨ sr = some e.sampling_rate) (hc : 1 < c)
    (padding : PaddingStrategy) (ml : Option ℕ) (tr : Bool) (mult : Option ℕ)
    (rn : Bool) (g : Option Gen) (ent : ℕ → Gen) (mic : Option ℕ) (pe : Bool)
    (pl : Option ℕ) (z : Option ℝ) (dn : Option Bool) :
    (callUnivNet e (RawSpeech.ndarray [b, c, t] d) sr padding ml tr mult rn g ent
        mic pe pl z dn).2 = Except.error CallError.multiChannel := by
  have hb : isBatchedNumpy (RawSpeech.ndarray [b, c, t] d) = true
      ∧ 2 < (RawSpeech.ndarray [b, c, t] d).ndim := by
    exact ⟨by simp [isBatchedNumpy], by simp [RawSpeech.ndim]⟩
  rcases hsr with h | h <;> subst h <;>
    simp [callUnivNet, validate, hb, Except.map]

/-- A concrete stereo batch of shape `(2, 2, 4)` with the sampling rate
omitted fails with the mono-only shape error. -/
theorem call_multichannel_validation_check :
    (callUnivNet eDefault (RawSpeech.ndarray [2, 2, 4] (fun _ => 0)) none
        PaddingStrategy.doNotPad none false none false none entZero none false
        none none none).2 = Except.error CallError.multiChannel :=
  call_multichannel_validation eDefault 2 2 4 (fun _ => 0) none (Or.inl rfl)
    (by decide) PaddingStrategy.doNotPad none false none false none entZero
    none false none none none

/-- C5 as stated is false: a 3-D batched array with more than one channel
does not always fail with the shape-validation error — when an explicit
mismatched sampling rate is also passed, the call fails with the
sampling-rate error instead, because that check runs first. -/
theorem call_multichannel_shape_counterexample :
    (callUnivNet eDefault (RawSpeech.ndarray [1, 2, 3] (fun _ => 0)) (some 8000)
        PaddingStrategy.doNotPad none false none false none entZero none false
        none none none).2
      = Except.error (CallError.samplingRateMismatch 24000 8000)
    ∧ CallError.samplingRateMismatch 24000 8000 ≠ CallError.multiChannel := by
  constructor
  · rfl
  · decide

/-- C8: with a supplied generator, the call is a pure function of its
arguments — in particular it is independent of the ambient entropy that
would seed fresh generators, so two calls with identical inputs, identical
arguments and identically seeded generators return identical outputs
(spectrograms and noise tensors alike). -/
theorem call_generator_determinism (e : Extractor) (raw : RawSpeech)
    (sr : Option ℕ) (padding : PaddingStrategy) (ml : Option ℕ) (tr : Bool)
    (mult : Option ℕ) (rn : Bool) (g : Gen) (ent ent' : ℕ → Gen)
    (mic : Option ℕ) (pe : Bool) (pl : Option ℕ) (z : Option ℝ)
    (dn : Option Bool) :
    callUnivNet e raw sr padding ml tr mult rn (some g) ent mic pe pl z dn
      = callUnivNet e raw sr padding ml tr mult rn (some g) ent' mic pe pl z dn := by
  have hp : pipelineOutput e raw padding ml tr mult rn (some g) ent mic pe pl z
        (dn.getD e.do_normalize)
      = pipelineOutput e raw padding ml tr mult rn (some g) ent' mic pe pl z
        (dn.getD e.do_normalize) := by
    simp only [pipelineOutput, noiseSequence]
    rw [noiseSeqAux_some_gen e mic _ g ent ent' 0 0]
  simp only [callUnivNet, hp]

/-- C6 (amended): with end-padding requested, every returned spectrogram
has `pad_length` (default `pad_end_length`) more frames than its own
unpadded spectrogram — per item, so frame counts may differ across the
batch — and, provided normalization is not requested, its trailing padded
frames hold exactly the zero value `spectrogram_zero` (caller-supplied or
configured) in every mel bin; with normalization requested the padded
frames are normalized along with the rest. -/
theorem pad_end_dims_general (e : Extractor) (pl : Option ℕ) (z : Option ℝ)
    (M : List Mat) (dnB : Bool) (i : ℕ) (hiM : i < M.length) (d : Mat) :
    ((if dnB then (M.map (fun s => padSpectrogramEnd e s pl z)).map
          (Mat.map (normalize e))
        else M.map (fun s => padSpectrogramEnd e s pl z)).getD i d).rows
        = (M.getD i d).rows + pl.getD e.pad_end_length
      ∧ (dnB = false → ∀ r j, (M.getD i d).rows ≤ r →
          ((if dnB then (M.map (fun s => padSpectrogramEnd e s pl z)).map
                (Mat.map (normalize e))
            else M.map (fun s => padSpectrogramEnd e s pl z)).getD i d).data r j
            = z.getD e.spectrogram_zero) := by
  cases dnB with
  | false =>
    rw [if_neg (by simp)]
    rw [getD_map_mat (fun s => padSpectrogramEnd e s pl z) M i hiM d]
    refine ⟨rfl, fun _ r j hr => ?_⟩
    show (if r < (M.getD i d).rows then (M.getD i d).data r j
        else z.getD e.spectrogram_zero) = z.getD e.spectrogram_zero
    rw [if_neg (Nat.not_lt.mpr hr)]
  | true =>
    rw [if_pos rfl]
    have hiS : i < (M.map (fun s => padSpectrogramEnd e s pl z)).length := by
      simpa using hiM
    rw [getD_map_mat (Mat.map (normalize e)) _ i hiS d,
      getD_map_mat (fun s => padSpectrogramEnd e s pl z) M i hiM d]
    exact ⟨rfl, fun hff => absurd hff (by simp)⟩

theorem call_pad_end_frames (e : Extractor) (raw : RawSpeech) (sr : Option ℕ)
    (padding : PaddingStrategy) (ml : Option ℕ) (tr : Bool) (mult : Option ℕ)
    (rn : Bool) (g : Option Gen) (ent : ℕ → Gen) (mic : Option ℕ)
    (pl : Option ℕ) (z : Option ℝ) (dn : Option Bool) (out : CallOutput)
    (h : (callUnivNet e raw sr padding ml tr mult rn g ent mic true pl z dn).2
        = Except.ok out)
    (i : ℕ) (hi : i < out.spectrogram.length) (d : Mat) :
    (out.spectrogram.getD i d).rows
        = ((callMelSpectrograms e raw padding ml tr mult).getD i d).rows
          + pl.getD e.pad_end_length
      ∧ (dn.getD e.do_normalize = false →
          ∀ r j, ((callMelSpectrograms e raw padding ml tr mult).getD i d).rows ≤ r →
            (out.spectrogram.getD i d).data r j = z.getD e.spectrogram_zero) := by
  have hout := callUnivNet_ok e raw sr padding ml tr mult rn g ent mic true pl z
    dn out h
  subst hout
  have hlen : (pipelineOutput e raw padding ml tr mult rn g ent mic true pl z
      (dn.getD e.do_normalize)).spectrogram.length
      = (callMelSpectrograms e raw padding ml tr mult).length := by
    show (if dn.getD e.do_normalize then
        ((callMelSpectrograms e raw padding ml tr mult).map
            (fun s => padSpectrogramEnd e s pl z)).map (Mat.map (normalize e))
      else (callMelSpectrograms e raw padding ml tr mult).map
          (fun s => padSpectrogramEnd e s pl z)).length
      = (callMelSpectrograms e raw padding ml tr mult).length
    cases dn.getD e.do_normalize <;> simp
  have hiM : i < (callMelSpectrograms e raw padding ml tr mult).length :=
    hlen ▸ hi
  exact pad_end_dims_general e pl z (callMelSpectrograms e raw padding ml tr mult)
    (dn.getD e.do_normalize) i hiM d

/-- The amended C6 at a concrete call: one empty waveform, `pad_end` on
with the default pad length `1` and zero value `0`, no normalization — the
returned spectrogram has `0 + 1` frames and its padded frame holds the
zero value. -/
theorem call_pad_end_frames_check :
    (padEndCallOutput.spectrogram.getD 0 Mat.zero).rows
        = ((callMelSpectrograms eSmall rawEmptyBatch PaddingStrategy.doNotPad none
            false none).getD 0 Mat.zero).rows + (none : Option ℕ).getD eSmall.pad_end_length
      ∧ (padEndCallOutput.spectrogram.getD 0 Mat.zero).data 0 0
          = (none : Option ℝ).getD eSmall.spectrogram_zero := by
  have h : (callUnivNet eSmall rawEmptyBatch none PaddingStrategy.doNotPad none false
      none false none entZero none true none none none).2
      = Except.ok padEndCallOutput := rfl
  have key := call_pad_end_frames eSmall rawEmptyBatch none PaddingStrategy.doNotPad
    none false none false none entZero none none none none padEndCallOutput h 0
    (by show (0 : ℕ) < 1; exact Nat.zero_lt_one) Mat.zero
  exact ⟨key.1, key.2 rfl 0 0 (by show (0 : ℕ) ≤ 0; exact Nat.le_refl 0)⟩

/-- C6 as stated is false: when normalization is also requested, the padded
frames of the returned spectrogram do not equal the zero value — at this
concrete call (`spectrogram_zero = 0`, bounds `[0, 2]`, `do_normalize`
enabled), the single padded frame holds `normalize 0 = -1 ≠ 0`. -/
theorem pad_end_zero_value_counterexample :
    (padEndNormCallOutput.spectrogram.getD 0 Mat.zero).rows = 1
      ∧ (padEndNormCallOutput.spectrogram.getD 0 Mat.zero).data 0 0 = -1
      ∧ eSmallNorm.spectrogram_zero = 0 ∧ ((-1 : ℝ) ≠ 0) := by
  refine ⟨rfl, ?_, rfl, by norm_num⟩
  show normalize eSmallNorm 0 = -1
  show 2 * ((0 - (0 : ℝ)) / (2 - 0)) - 1 = -1
  norm_num

theorem noise_dims_general (e : Extractor) (mic : Option ℕ) (g : Option Gen)
    (ent : ℕ → Gen) (S : List Mat) (dnB : Bool) :
    (noiseSeqAux e mic g ent 0 S).length
        = (if dnB then S.map (Mat.map (normalize e)) else S).length
      ∧ ∀ i, i < (noiseSeqAux e mic g ent 0 S).length → ∀ d : Mat,
          ((noiseSeqAux e mic g ent 0 S).getD i d).rows
              = ((if dnB then S.map (Mat.map (normalize e)) else S).getD i d).rows
            ∧ ((noiseSeqAux e mic g ent 0 S).getD i d).cols
              = mic.getD e.model_in_channels := by
  obtain ⟨hl, hd⟩ := noiseSeqAux_dims e mic S g ent 0
  cases dnB with
  | false => exact ⟨by simpa using hl, fun i hi d => hd i (hl ▸ hi) d⟩
  | true =>
    refine ⟨by simpa using hl, fun i hi d => ?_⟩
    have hi' : i < S.length := hl ▸ hi
    have base := hd i hi' d
    refine ⟨?_, base.2⟩
    rw [if_pos rfl, getD_map_mat (Mat.map (normalize e)) S i hi' d]
    exact base.1

/-- C7: with noise requested, a successful call returns a noise list with
exactly one tensor per returned spectrogram, each tensor's leading
dimension equal to its paired spectrogram's frame count (end padding
included) and its trailing dimension equal to the overridden channel count
or, when not overridden, the configured `model_in_channels`. -/
theorem call_noise_dimensions (e : Extractor) (raw : RawSpeech) (sr : Option ℕ)
    (padding : PaddingStrategy) (ml : Option ℕ) (tr : Bool) (mult : Option ℕ)
    (g : Option Gen) (ent : ℕ → Gen) (mic : Option ℕ) (pe : Bool)
    (pl : Option ℕ) (z : Option ℝ) (dn : Option Bool) (out : CallOutput)
    (h : (callUnivNet e raw sr padding ml tr mult true g ent mic pe pl z dn).2
        = Except.ok out) :
    out.noise_sequence ≠ none
      ∧ (out.noise_sequence.getD []).length = out.spectrogram.length
      ∧ ∀ i, i < (out.noise_sequence.getD []).length → ∀ d : Mat,
          ((out.noise_sequence.getD []).getD i d).rows
              = (out.spectrogram.getD i d).rows
            ∧ ((out.noise_sequence.getD []).getD i d).cols
              = mic.getD e.model_in_channels := by
  have hout := callUnivNet_ok e raw sr padding ml tr mult true g ent mic pe pl z
    dn out h
  subst hout
  have hkey := noise_dims_general e mic g ent
    (if pe then (callMelSpectrograms e raw padding ml tr mult).map
        (fun s => padSpectrogramEnd e s pl z)
      else callMelSpectrograms e raw padding ml tr mult) (dn.getD e.do_normalize)
  exact ⟨Option.some_ne_none _, hkey.1, hkey.2⟩

/-- C7 at a concrete call: one empty waveform, `pad_end` on and noise
requested with a supplied generator — the noise list has one tensor, whose
row count matches the padded spectrogram's single frame and whose column
count is the configured `model_in_channels = 2`. -/
theorem call_noise_dimensions_check :
    noiseCallOutput.noise_sequence ≠ none
      ∧ (noiseCallOutput.noise_sequence.getD []).length
          = noiseCallOutput.spectrogram.length
      ∧ ((noiseCallOutput.noise_sequence.getD []).getD 0 Mat.zero).rows
          = (noiseCallOutput.spectrogram.getD 0 Mat.zero).rows
      ∧ ((noiseCallOutput.noise_sequence.getD []).getD 0 Mat.zero).cols
          = (none : Option ℕ).getD eSmall.model_in_channels := by
  have h : (callUnivNet eSmall rawEmptyBatch none PaddingStrategy.doNotPad none false
      none true (some genZero) entZero none true none none none).2
      = Except.ok noiseCallOutput := rfl
  have key := call_noise_dimensions eSmall rawEmptyBatch none PaddingStrategy.doNotPad
    none false none (some genZero) entZero none true none none none
    noiseCallOutput h
  have hlen : 0 < (noiseCallOutput.noise_sequence.getD []).length := by
    show (0 : ℕ) < 1
    exact Nat.zero_lt_one
  exact ⟨key.1, key.2.1, (key.2.2 0 hlen Mat.zero).1, (key.2.2 0 hlen Mat.zero).2⟩

/-- C9: the serialized key set of `to_dict` excludes all five derived
fields — the analysis window, the mel filter bank, the FFT size, the
frequency-bin count and the maximum sample count — while retaining the
constructor parameters they are derived from (`win_length`, `win_function`,
`filter_length`, `num_mel_bins`, `fmin`, `fmax`, `sampling_rate`,
`max_length_s`). -/
theorem to_dict_excludes_derived :
    (toDictDeletedNames.all (fun n => !(toDictKeys.contains n))) = true
      ∧ (["win_length", "win_function", "filter_length", "num_mel_bins", "fmin",
          "fmax", "sampling_rate", "max_length_s"].all
            (fun n => toDictKeys.contains n)) = true := by
  constructor
  · decide
  · decide

end UnivNet
